import Mathlib

/-!
Verification of the loop-controller core of the dance-practice video looper.

The development embeds the three source files shallowly:

* `formatTime`   — `src/utils/formatTime.ts` (`src/unnamed/part_000`, lines 1-15);
* `getSeekTime`  — `Timeline` component (`src/unnamed/part_001`), including the
  JavaScript division-by-zero behaviour, which matters because the source has
  no `width <= 0` guard;
* `PlayerState` / `stepEv` — the `VideoPlayer` component (`src/unnamed/part_000`,
  lines 77-382) together with the drag logic of `Timeline` and the rename-commit
  logic of `StepsSidebar.tsx`, as an explicit event-step function.

Times are embedded as rationals; the JavaScript `number` corner cases the code
actually hits (NaN input to `formatTime`, division by a zero track width) are
made explicit in the embedding (`Option` for possibly-NaN input, `JsNum` for
IEEE-style division results).
-/

/-- Truncation toward zero, the rounding mode of the JavaScript `%` operator
(`Math.trunc`): floor for nonnegative arguments, ceiling for negative ones. -/
def jsTrunc (q : ℚ) : ℤ :=
  if 0 ≤ q then ⌊q⌋ else ⌈q⌉

/-- The JavaScript remainder `a % b` (sign follows the dividend):
`a - b * trunc (a / b)`.  Every call site in the source has a nonnegative
dividend and the positive divisors `60` and `100`. -/
def jsMod (a b : ℚ) : ℚ :=
  a - b * (jsTrunc (a / b) : ℚ)

/-- JavaScript `String(n).padStart(2, "0")` for the decimal rendering of a
nonnegative integer: prepend '0' characters until the length is at least 2. -/
def padStart2 (s : String) : String :=
  if s.length < 2 then String.mk (List.replicate (2 - s.length) '0') ++ s else s

/-- Embeds `formatTime` from `src/utils/formatTime.ts`.  The argument models a
JavaScript number that may be NaN: `none` is NaN, `some q` a finite value.
`minutes = Math.floor(t / 60)`, `seconds = Math.floor(t % 60)`,
`centiseconds = Math.floor((t * 100) % 100)`, each rendered with
`String(·).padStart(2, "0")` and joined as `MM:SS.CC`. -/
def formatTime (t : Option ℚ) : String :=
  match t with
  | none => "00:00.00"
  | some q =>
    if q < 0 then "00:00.00"
    else
      padStart2 (Nat.repr (⌊q / 60⌋).toNat) ++ ":" ++
      padStart2 (Nat.repr (⌊jsMod q 60⌋).toNat) ++ "." ++
      padStart2 (Nat.repr (⌊jsMod (q * 100) 100⌋).toNat)

/-- A JavaScript number as produced by the arithmetic in `getSeekTime`:
finite, one of the infinities, or NaN.  Needed because the source divides by
`rect.width` without checking it for zero. -/
inductive JsNum where
  | num (q : ℚ)
  | posInf
  | negInf
  | nan
deriving DecidableEq, Repr

/-- JavaScript division `a / b` on finite operands: ordinary division for
`b ≠ 0`; for `b = 0` it yields `+Infinity`, `-Infinity`, or `NaN` according to
the sign of `a`. -/
def jsDiv (a b : ℚ) : JsNum :=
  if b = 0 then
    (if 0 < a then JsNum.posInf else if a < 0 then JsNum.negInf else JsNum.nan)
  else JsNum.num (a / b)

/-- JavaScript `Math.min` on two values: NaN-propagating, infinity-aware. -/
def jsMin : JsNum → JsNum → JsNum
  | JsNum.nan, _ => JsNum.nan
  | _, JsNum.nan => JsNum.nan
  | JsNum.negInf, _ => JsNum.negInf
  | _, JsNum.negInf => JsNum.negInf
  | JsNum.posInf, b => b
  | a, JsNum.posInf => a
  | JsNum.num a, JsNum.num b => JsNum.num (min a b)

/-- JavaScript `Math.max` on two values: NaN-propagating, infinity-aware. -/
def jsMax : JsNum → JsNum → JsNum
  | JsNum.nan, _ => JsNum.nan
  | _, JsNum.nan => JsNum.nan
  | JsNum.posInf, _ => JsNum.posInf
  | _, JsNum.posInf => JsNum.posInf
  | JsNum.negInf, b => b
  | a, JsNum.negInf => a
  | JsNum.num a, JsNum.num b => JsNum.num (max a b)

/-- JavaScript multiplication of a possibly non-finite value by a finite one
(`percentage * duration` in the source). -/
def jsMulNum : JsNum → ℚ → JsNum
  | JsNum.nan, _ => JsNum.nan
  | JsNum.posInf, d =>
      if 0 < d then JsNum.posInf else if d < 0 then JsNum.negInf else JsNum.nan
  | JsNum.negInf, d =>
      if 0 < d then JsNum.negInf else if d < 0 then JsNum.posInf else JsNum.nan
  | JsNum.num a, d => JsNum.num (a * d)

/-- Embeds `getSeekTime` of the `Timeline` component.  `refSet` models
`timelineRef.current` being non-null; `clientX`, `rectLeft`, `rectWidth` are
the pointer coordinate and the track's bounding rectangle.  The source:
`if (!timelineRef.current || duration === 0) return 0;` then
`percentage = Math.max(0, Math.min(1, (clientX - rect.left) / rect.width))`
and the result is `percentage * duration`.  There is no guard on the width. -/
def getSeekTime (refSet : Bool) (duration clientX rectLeft rectWidth : ℚ) : JsNum :=
  if refSet = false ∨ duration = 0 then JsNum.num 0
  else jsMulNum (jsMax (JsNum.num 0) (jsMin (JsNum.num 1) (jsDiv (clientX - rectLeft) rectWidth))) duration

/-- Identity of a bookmark ("step").  The source uses
`new Date().toISOString()` for `handleAddStep` and
`new Date().toISOString() + "-" + index` for `handleLoadSteps`.  Timestamps
are modelled as the clock's milliseconds; the two constructors record the two
string shapes (an ISO string ends in 'Z', an import identity in the decimal
index), so identities from the two paths are never equal and two identities
from the same path are equal exactly when their components are. -/
inductive StepId where
  | fromAdd (ts : Nat)
  | fromImport (ts : Nat) (idx : Nat)
deriving DecidableEq, Repr

/-- The `Step` interface of `VideoPlayer`: `{id, name, start, end}`.  The
`end` field is called `stop` here because `end` is reserved in Lean. -/
structure Step where
  id : StepId
  name : String
  start : ℚ
  stop : ℚ
deriving DecidableEq, Repr

/-- Which handle the `Timeline` drag state machine currently captures:
`isDraggingPlayhead` / `isDraggingStart` / `isDraggingEnd`, or none of them. -/
inductive DragTarget where
  | idle
  | playhead
  | startHandle
  | endHandle
deriving DecidableEq, Repr

/-- The state of one mounted `VideoPlayer` (plus its `Timeline` drag flags):
the `useState` cells of the component together with the video element's
playback position (`videoTime`, the value of `video.currentTime`). -/
structure PlayerState where
  isPlaying : Bool
  currentTime : ℚ
  videoTime : ℚ
  duration : ℚ
  isLooping : Bool
  loopStart : ℚ
  loopEnd : ℚ
  steps : List Step
  activeStepId : Option StepId
  drag : DragTarget
deriving DecidableEq, Repr

/-- State of a freshly mounted `VideoPlayer`.  In `App.tsx` a new video source
always unmounts the old player (the url is set to `null` first) and mounts a
fresh one, so every `useState` cell is at its initial value; the
`[videoUrl]` effect then (re)assigns `loopStart = 0`, `loopEnd = 0`,
`currentTime = 0`, `isPlaying = false`, which are the same values. -/
def initState : PlayerState :=
  { isPlaying := false
    currentTime := 0
    videoTime := 0
    duration := 0
    isLooping := false
    loopStart := 0
    loopEnd := 0
    steps := []
    activeStepId := none
    drag := DragTarget.idle }

/-- The `useEffect` on `[loopStart, loopEnd, activeStepId]`: while a step is
active, mirror the live loop bounds into that step's stored range.  Applied
after every mutation of its dependencies. -/
def syncSteps (active : Option StepId) (ls le : ℚ) (steps : List Step) : List Step :=
  match active with
  | none => steps
  | some aid =>
      steps.map (fun st => if st.id = aid then { st with start := ls, stop := le } else st)

/-- Builds the steps produced by `handleLoadSteps`: each imported record gets
the identity `toISOString() + "-" + index`, with `index` counting from `i`. -/
def importStepsFrom (ts : Nat) (i : Nat) : List (String × ℚ × ℚ) → List Step
  | [] => []
  | (nm, a, b) :: rest =>
      { id := StepId.fromImport ts i, name := nm, start := a, stop := b } ::
        importStepsFrom ts (i + 1) rest

/-- `importedSteps.map((step, index) => ({...step, id: ... + "-" + index}))`. -/
def importSteps (ts : Nat) (l : List (String × ℚ × ℚ)) : List Step :=
  importStepsFrom ts 0 l

/-- Whitespace as stripped by `String.prototype.trim`: space, tab, LF, CR
(the further Unicode space characters JavaScript also strips are analogous
and omitted). -/
def isJsSpace (c : Char) : Bool :=
  c == ' ' || c == '\t' || c == '\n' || c == '\r'

/-- JavaScript `String.prototype.trim` on the draft name: drop whitespace
from both ends. -/
def jsTrim (s : String) : String :=
  String.mk (((s.data.dropWhile isJsSpace).reverse.dropWhile isJsSpace).reverse)

/-- The discrete events the `VideoPlayer` / `Timeline` pair reacts to.

* `metadataLoaded d` — the `loadedmetadata` listener (`setDuration`,
  `setLoopEnd`);
* `timeUpdate t` — playback moved the element to position `t` and the
  `timeupdate` listener runs (`handleTimeUpdate`);
* `setLoopStartCmd` / `setLoopEndCmd` — the Set Start / Set End buttons
  (`handleSetLoopStart` / `handleSetLoopEnd`), reading `video.currentTime`;
* `mouseDown…` / `mouseUp` / `mouseMove t` — the `Timeline` drag state
  machine, `t` being the value `getSeekTime` computed for the sample;
* `toggleLoop` — the loop button;
* `playStep i` — `handlePlayStep` on the `i`-th listed step;
* `addStep ts` — `handleAddStep` at clock timestamp `ts`;
* `deleteStep id` — `handleDeleteStep`;
* `updateStepName id nm` — `handleUpdateStepName`;
* `blurName id draft` — `handleNameBlur` in `StepsSidebar` committing the
  draft text for step `id` (empty-after-trim drafts issue no update);
* `loadSteps ts l` — `handleLoadSteps` at clock timestamp `ts`;
* `seek t` — `handleSeek` (timeline click);
* `resetToLoopStart` — `handleReset`;
* `togglePlayPause` — play/pause button or Space. -/
inductive Ev where
  | metadataLoaded (d : ℚ)
  | timeUpdate (t : ℚ)
  | setLoopStartCmd
  | setLoopEndCmd
  | mouseDownPlayhead
  | mouseDownStart
  | mouseDownEnd
  | mouseUp
  | mouseMove (t : ℚ)
  | toggleLoop
  | playStep (i : Nat)
  | addStep (ts : Nat)
  | deleteStep (id : StepId)
  | updateStepName (id : StepId) (nm : String)
  | blurName (id : StepId) (draft : String)
  | loadSteps (ts : Nat) (l : List (String × ℚ × ℚ))
  | seek (t : ℚ)
  | resetToLoopStart
  | togglePlayPause

/-- One event step of the controller.  Returns the next state and the list of
seek commands issued to the playback engine during the event (an assignment
to `video.currentTime`).  Each branch is the body of the correspondingly
named handler in the source; the `syncSteps` application is the
`[loopStart, loopEnd, activeStepId]` effect that React runs after the
mutation commits. -/
def stepEv (s : PlayerState) (e : Ev) : PlayerState × List ℚ :=
  match e with
  | Ev.metadataLoaded d =>
      ({ s with
          duration := d
          loopEnd := d
          steps := syncSteps s.activeStepId s.loopStart d s.steps }, [])
  | Ev.timeUpdate t =>
      if s.isLooping = true ∧ s.loopEnd ≤ t then
        ({ s with currentTime := t, videoTime := s.loopStart }, [s.loopStart])
      else
        ({ s with currentTime := t, videoTime := t }, [])
  | Ev.setLoopStartCmd =>
      if s.videoTime < s.loopEnd then
        ({ s with
            loopStart := s.videoTime
            steps := syncSteps s.activeStepId s.videoTime s.loopEnd s.steps }, [])
      else (s, [])
  | Ev.setLoopEndCmd =>
      if s.loopStart < s.videoTime then
        ({ s with
            loopEnd := s.videoTime
            steps := syncSteps s.activeStepId s.loopStart s.videoTime s.steps }, [])
      else (s, [])
  | Ev.mouseDownPlayhead => ({ s with drag := DragTarget.playhead }, [])
  | Ev.mouseDownStart => ({ s with drag := DragTarget.startHandle }, [])
  | Ev.mouseDownEnd => ({ s with drag := DragTarget.endHandle }, [])
  | Ev.mouseUp => ({ s with drag := DragTarget.idle }, [])
  | Ev.mouseMove t =>
      match s.drag with
      | DragTarget.playhead => ({ s with videoTime := t, currentTime := t }, [t])
      | DragTarget.startHandle =>
          if t < s.loopEnd then
            ({ s with
                loopStart := t
                steps := syncSteps s.activeStepId t s.loopEnd s.steps }, [])
          else (s, [])
      | DragTarget.endHandle =>
          if s.loopStart < t then
            ({ s with
                loopEnd := t
                steps := syncSteps s.activeStepId s.loopStart t s.steps }, [])
          else (s, [])
      | DragTarget.idle => (s, [])
  | Ev.toggleLoop => ({ s with isLooping := !s.isLooping }, [])
  | Ev.playStep i =>
      match s.steps.get? i with
      | some st =>
          ({ s with
              activeStepId := some st.id
              loopStart := st.start
              loopEnd := st.stop
              isLooping := true
              videoTime := st.start
              currentTime := st.start
              isPlaying := true
              steps := syncSteps (some st.id) st.start st.stop s.steps }, [st.start])
      | none => (s, [])
  | Ev.addStep ts =>
      ({ s with
          steps := s.steps ++
            [{ id := StepId.fromAdd ts
               name := "Step " ++ Nat.repr (s.steps.length + 1)
               start := s.loopStart
               stop := s.loopEnd }] }, [])
  | Ev.deleteStep i =>
      if s.activeStepId = some i then
        ({ s with
            steps := s.steps.filter (fun st => decide (st.id ≠ i))
            activeStepId := none
            isLooping := false }, [])
      else
        ({ s with steps := s.steps.filter (fun st => decide (st.id ≠ i)) }, [])
  | Ev.updateStepName i nm =>
      ({ s with
          steps := s.steps.map
            (fun st => if st.id = i then { st with name := nm } else st) }, [])
  | Ev.blurName i draft =>
      if jsTrim draft = "" then (s, [])
      else
        ({ s with
            steps := s.steps.map
              (fun st => if st.id = i then { st with name := draft } else st) }, [])
  | Ev.loadSteps ts l => ({ s with steps := importSteps ts l }, [])
  | Ev.seek t => ({ s with videoTime := t, currentTime := t }, [t])
  | Ev.resetToLoopStart => ({ s with videoTime := s.loopStart }, [s.loopStart])
  | Ev.togglePlayPause => ({ s with isPlaying := !s.isPlaying }, [])

/-- Runs a list of events, accumulating the seek commands issued. -/
def run (s : PlayerState) : List Ev → PlayerState × List ℚ
  | [] => (s, [])
  | e :: rest =>
      let r := stepEv s e
      let r2 := run r.1 rest
      (r2.1, r.2 ++ r2.2)

/-- The identities of a step list, in order. -/
def idsOf (l : List Step) : List StepId :=
  l.map (fun st => st.id)

/-- The clock timestamps of the `addStep` events of a trace, in order. -/
def addTs : List Ev → List Nat
  | [] => []
  | Ev.addStep ts :: rest => ts :: addTs rest
  | _ :: rest => addTs rest

/-- The loop-range invariant the specification asserts:
`0 ≤ loopStart < loopEnd ≤ duration`. -/
def LoopInv (s : PlayerState) : Prop :=
  0 ≤ s.loopStart ∧ s.loopStart < s.loopEnd ∧ s.loopEnd ≤ s.duration

instance : DecidablePred LoopInv := fun s => by
  unfold LoopInv; infer_instance

/-- Commit of a rename as `handleNameBlur` performs it, seen from the input
field: the name update issued to the store (`none` when the trimmed draft is
empty — the source then only reverts the local draft) and the text displayed
afterwards. -/
def handleNameBlur (storedName draft : String) : Option String × String :=
  if jsTrim draft = "" then (none, storedName) else (some draft, draft)

/-- Scenario trace of the active-bookmark binding: load a 10-second video
and bookmarks A = [2,4] and B = [7,9], activate A, grab the end handle and
drag it to 6. -/
def traceA : List Ev :=
  [Ev.metadataLoaded 10, Ev.loadSteps 0 [("A", 2, 4), ("B", 7, 9)],
   Ev.playStep 0, Ev.mouseDownEnd, Ev.mouseMove 6]

/-- Continuation of `traceA`: release the handle, activate B instead, grab
the end handle again and drag it to 8. -/
def traceB : List Ev :=
  traceA ++ [Ev.mouseUp, Ev.playStep 1, Ev.mouseDownEnd, Ev.mouseMove 8]

/-! ### Helper lemmas -/

theorem jsTrunc_eq_floor (q : ℚ) (h : 0 ≤ q) : jsTrunc q = ⌊q⌋ := by
  simp [jsTrunc, h]

theorem jsMod_nonneg (a b : ℚ) (ha : 0 ≤ a) (hb : 0 < b) : 0 ≤ jsMod a b := by
  have hq : 0 ≤ a / b := div_nonneg ha hb.le
  rw [jsMod, jsTrunc_eq_floor _ hq, sub_nonneg]
  calc (b : ℚ) * ⌊a / b⌋ ≤ b * (a / b) := by
        exact mul_le_mul_of_nonneg_left (Int.floor_le _) hb.le
    _ = a := by field_simp

theorem jsMod_lt (a b : ℚ) (ha : 0 ≤ a) (hb : 0 < b) : jsMod a b < b := by
  have hq : 0 ≤ a / b := div_nonneg ha hb.le
  rw [jsMod, jsTrunc_eq_floor _ hq, sub_lt_iff_lt_add]
  have h1 : a / b < ⌊a / b⌋ + 1 := Int.lt_floor_add_one _
  calc a = b * (a / b) := by field_simp
    _ < b * (⌊a / b⌋ + 1) := by exact mul_lt_mul_of_pos_left h1 hb
    _ = b + b * ⌊a / b⌋ := by ring

theorem map_field_eq {α : Type} (f : Step → Step) (g : Step → α)
    (hf : ∀ st, g (f st) = g st) (l : List Step) : (l.map f).map g = l.map g := by
  induction l with
  | nil => rfl
  | cons st rest ih => simp only [List.map_cons, ih, hf]

theorem idsOf_map_id_preserving (f : Step → Step) (hf : ∀ st, (f st).id = st.id)
    (l : List Step) : idsOf (l.map f) = idsOf l :=
  map_field_eq f (fun st => st.id) hf l

theorem idsOf_syncSteps (a : Option StepId) (ls le : ℚ) (l : List Step) :
    idsOf (syncSteps a ls le l) = idsOf l := by
  cases a with
  | none => rfl
  | some aid =>
      refine idsOf_map_id_preserving _ (fun st => ?_) l
      by_cases h : st.id = aid <;> simp [h]

theorem mem_idsOf_importStepsFrom (ts : Nat) (l : List (String × ℚ × ℚ)) :
    ∀ (i : Nat) (x : StepId), x ∈ idsOf (importStepsFrom ts i l) →
      ∃ j, i ≤ j ∧ x = StepId.fromImport ts j := by
  induction l with
  | nil => intro i x hx; simp [importStepsFrom, idsOf] at hx
  | cons p rest ih =>
      intro i x hx
      obtain ⟨nm, a, b⟩ := p
      simp only [importStepsFrom, idsOf, List.map_cons, List.mem_cons] at hx
      cases hx with
      | inl h => exact ⟨i, le_refl i, h⟩
      | inr h =>
          obtain ⟨j, hj1, hj2⟩ := ih (i + 1) x h
          exact ⟨j, by omega, hj2⟩

theorem nodup_idsOf_importStepsFrom (ts : Nat) (l : List (String × ℚ × ℚ)) :
    ∀ i : Nat, (idsOf (importStepsFrom ts i l)).Nodup := by
  induction l with
  | nil => intro i; simp [importStepsFrom, idsOf]
  | cons p rest ih =>
      intro i
      obtain ⟨nm, a, b⟩ := p
      simp only [importStepsFrom, idsOf, List.map_cons, List.nodup_cons]
      refine ⟨fun hmem => ?_, ih (i + 1)⟩
      obtain ⟨j, hj1, hj2⟩ := mem_idsOf_importStepsFrom ts rest (i + 1) _ hmem
      cases hj2
      omega

/-! ### C7 — formatTime -/

/-- C7: `formatTime` maps NaN and negative inputs to "00:00.00", maps 125.4
to "02:05.40", and renders every nonnegative finite time as `MM:SS.CC`:
minutes `⌊t / 60⌋`, seconds `⌊t % 60⌋` (always in 0..59), centiseconds
`⌊(t * 100) % 100⌋` (always in 0..99), each rendered zero-padded to at least
two digits by `padStart2`. -/
theorem C7_formatTime_spec :
    formatTime none = "00:00.00" ∧
    formatTime (some (-1)) = "00:00.00" ∧
    formatTime (some (627/5)) = "02:05.40" ∧
    ∀ q : ℚ, 0 ≤ q →
      formatTime (some q) =
        padStart2 (Nat.repr (⌊q / 60⌋).toNat) ++ ":" ++
        padStart2 (Nat.repr (⌊jsMod q 60⌋).toNat) ++ "." ++
        padStart2 (Nat.repr (⌊jsMod (q * 100) 100⌋).toNat) ∧
      0 ≤ ⌊q / 60⌋ ∧
      0 ≤ ⌊jsMod q 60⌋ ∧ ⌊jsMod q 60⌋ < 60 ∧
      0 ≤ ⌊jsMod (q * 100) 100⌋ ∧ ⌊jsMod (q * 100) 100⌋ < 100 := by
  refine ⟨by norm_num [formatTime], by norm_num [formatTime], ?_, ?_⟩
  · norm_num [formatTime, jsMod, jsTrunc, padStart2]
    decide
  · intro q hq
    have h60 : (0:ℚ) < 60 := by norm_num
    have h100 : (0:ℚ) < 100 := by norm_num
    have hq100 : 0 ≤ q * 100 := by positivity
    refine ⟨by simp [formatTime, not_lt.mpr hq], ?_, ?_, ?_, ?_, ?_⟩
    · exact Int.floor_nonneg.mpr (div_nonneg hq h60.le)
    · exact Int.floor_nonneg.mpr (jsMod_nonneg q 60 hq h60)
    · exact Int.floor_lt.mpr (by exact_mod_cast jsMod_lt q 60 hq h60)
    · exact Int.floor_nonneg.mpr (jsMod_nonneg (q * 100) 100 hq100 h100)
    · exact Int.floor_lt.mpr (by exact_mod_cast jsMod_lt (q * 100) 100 hq100 h100)

/-- Witness for C7 at the concrete input 125.4 = 627/5. -/
theorem C7_formatTime_spec_witness :
    (0:ℚ) ≤ 627/5 ∧
    (formatTime (some (627/5)) =
        padStart2 (Nat.repr (⌊(627/5 : ℚ) / 60⌋).toNat) ++ ":" ++
        padStart2 (Nat.repr (⌊jsMod (627/5) 60⌋).toNat) ++ "." ++
        padStart2 (Nat.repr (⌊jsMod ((627/5) * 100) 100⌋).toNat) ∧
      0 ≤ ⌊(627/5 : ℚ) / 60⌋ ∧
      0 ≤ ⌊jsMod (627/5) 60⌋ ∧ ⌊jsMod (627/5) 60⌋ < 60 ∧
      0 ≤ ⌊jsMod ((627/5) * 100) 100⌋ ∧ ⌊jsMod ((627/5) * 100) 100⌋ < 100) :=
  ⟨by norm_num, C7_formatTime_spec.2.2.2 (627/5) (by norm_num)⟩

/-! ### C8 — getSeekTime -/

/-- C8 counterexample: the claim says the mapping "returns 0 whenever
trackWidth ≤ 0", but with the ref set, duration 10 and a zero-width track the
source divides by zero: a pointer 5px right of the track's left edge yields
`Infinity`, which the clamp turns into 1 and the scaling into the full
duration 10, not 0. -/
theorem C8_counterexample :
    getSeekTime true 10 5 0 0 = JsNum.num 10 ∧
    ¬ getSeekTime true 10 5 0 0 = JsNum.num 0 := by
  constructor <;>
    norm_num [getSeekTime, jsDiv, jsMulNum, jsMin, jsMax, min_def, max_def]

/-- C8 amended: for a nonzero track width the mapping returns
`clamp((clientX - rectLeft) / rectWidth, 0, 1) * duration` (and 0 when the
ref is unset or the duration is 0); when the ref is unset or the duration is
0 it returns 0 regardless of geometry; but for a zero track width with a
nonzero duration the division by zero is unguarded and the result is the
full duration (pointer right of the track's left edge), 0 (pointer left of
it), or NaN (pointer exactly at it). -/
theorem C8_getSeekTime_spec (refSet : Bool) (d x l w : ℚ) :
    (w ≠ 0 → getSeekTime refSet d x l w =
        (if refSet = false ∨ d = 0 then JsNum.num 0
         else JsNum.num (max 0 (min 1 ((x - l) / w)) * d))) ∧
    (refSet = false ∨ d = 0 → getSeekTime refSet d x l w = JsNum.num 0) ∧
    (w = 0 → refSet = true → ¬ d = 0 →
        getSeekTime refSet d x l w =
          (if l < x then JsNum.num d
           else if x < l then JsNum.num 0 else JsNum.nan)) := by
  refine ⟨fun hw => ?_, fun hg => ?_, fun hw hr hd => ?_⟩
  · by_cases hg : refSet = false ∨ d = 0
    · simp [getSeekTime, hg]
    · simp [getSeekTime, hg, jsDiv, hw, jsMin, jsMax, jsMulNum]
  · simp [getSeekTime, hg]
  · subst hw hr
    by_cases hx : l < x
    · have hpos : 0 < x - l := by linarith
      simp [getSeekTime, hd, jsDiv, hpos, jsMin, jsMax, jsMulNum, hx]
    · by_cases hx2 : x < l
      · have hneg : x - l < 0 := by linarith
        simp [getSeekTime, hd, jsDiv, hneg, jsMin, jsMax, jsMulNum, hx, hx2,
          not_lt.mpr (le_of_lt hneg), max_def]
      · have heq : x - l = 0 := by linarith
        simp [getSeekTime, hd, jsDiv, heq, jsMin, jsMax, jsMulNum, hx, hx2]

/-- Witness for C8 at a concrete geometry: a 10-second video, an 8px track,
pointer 3px in, giving (3/8) * 10 = 15/4 seconds. -/
theorem C8_getSeekTime_spec_witness :
    (8:ℚ) ≠ 0 ∧ getSeekTime true 10 3 0 8 = JsNum.num (15/4) := by
  refine ⟨by norm_num, ?_⟩
  have h := (C8_getSeekTime_spec true 10 3 0 8).1 (by norm_num)
  norm_num [min_def, max_def] at h
  exact h

/-! ### C1 — loop-range invariant -/

/-- C1 counterexample: the invariant `0 ≤ loopStart < loopEnd ≤ duration`
does not hold in all reachable states.  Immediately after a source change the
fresh player has `loopStart = loopEnd = 0` (metadata not yet arrived), and
activating a bookmark installs its stored range unvalidated: importing a
record with `start = 5, end = 3` (the import checks only field presence) and
playing it yields `loopStart = 5 > loopEnd = 3`. -/
theorem C1_counterexample :
    ¬ LoopInv initState ∧
    ¬ LoopInv (run initState
      [Ev.metadataLoaded 10, Ev.loadSteps 0 [("A", 5, 3)], Ev.playStep 0]).1 := by
  constructor
  · norm_num [initState, LoopInv]
  · norm_num [run, stepEv, initState, importSteps, importStepsFrom, syncSteps, LoopInv]

/-- C1 amended: the boundary mutations themselves — drag samples on either
handle and the set-start/set-end commands — do preserve the invariant
whenever the candidate time (the drag sample, resp. the playback position)
lies in `[0, duration]`; so do toggling the loop and releasing the pointer.
What the original claim wrongly included are the new-media reset (which
leaves `loopStart = loopEnd = 0` until metadata arrives) and bookmark
activation with an arbitrary stored range (installed unvalidated). -/
theorem C1_boundary_mutations_preserve_inv (s : PlayerState) (t : ℚ)
    (hInv : LoopInv s) (ht0 : 0 ≤ t) (htd : t ≤ s.duration)
    (hv0 : 0 ≤ s.videoTime) (hvd : s.videoTime ≤ s.duration) :
    LoopInv (stepEv s (Ev.mouseMove t)).1 ∧
    LoopInv (stepEv s Ev.setLoopStartCmd).1 ∧
    LoopInv (stepEv s Ev.setLoopEndCmd).1 ∧
    LoopInv (stepEv s Ev.toggleLoop).1 ∧
    LoopInv (stepEv s Ev.mouseUp).1 := by
  obtain ⟨h1, h2, h3⟩ := hInv
  refine ⟨?_, ?_, ?_, ?_, ?_⟩
  · cases hd : s.drag <;> simp only [stepEv, hd]
    · exact ⟨h1, h2, h3⟩
    · exact ⟨h1, h2, h3⟩
    · split
      · next hlt => exact ⟨ht0, hlt, h3⟩
      · exact ⟨h1, h2, h3⟩
    · split
      · next hlt => exact ⟨h1, hlt, htd⟩
      · exact ⟨h1, h2, h3⟩
  · simp only [stepEv]
    split
    · next hlt => exact ⟨hv0, hlt, h3⟩
    · exact ⟨h1, h2, h3⟩
  · simp only [stepEv]
    split
    · next hlt => exact ⟨h1, hlt, hvd⟩
    · exact ⟨h1, h2, h3⟩
  · exact ⟨h1, h2, h3⟩
  · exact ⟨h1, h2, h3⟩

/-- Witness for C1 amended at a concrete state (10-second video, loop [0,10],
playhead at 4) and drag sample t = 3. -/
theorem C1_boundary_mutations_preserve_inv_witness :
    LoopInv { initState with duration := 10, loopEnd := 10, videoTime := 4 } ∧
    (0:ℚ) ≤ 3 ∧
    LoopInv (stepEv { initState with duration := 10, loopEnd := 10, videoTime := 4 }
      (Ev.mouseMove 3)).1 := by
  have hInv : LoopInv { initState with duration := 10, loopEnd := 10, videoTime := 4 } := by
    norm_num [initState, LoopInv]
  refine ⟨hInv, by norm_num, ?_⟩
  exact (C1_boundary_mutations_preserve_inv _ 3 hInv (by norm_num)
    (by norm_num [initState]) (by norm_num [initState]) (by norm_num [initState])).1

/-! ### C2 — reset on new source -/

/-- C2: loading a new video source fully resets the controller.  In the app a
new source always unmounts the old `VideoPlayer` and mounts a fresh one (the
upload screen is only reachable after the url is cleared), so the state is
`initState`: `loopStart = 0`, `isLooping = false`, no drag capture, no active
bookmark; once `loadedmetadata` fires, `duration` and `loopEnd` become the
new duration while everything else is still reset. -/
theorem C2_new_source_reset (d : ℚ) :
    initState.loopStart = 0 ∧ initState.loopEnd = 0 ∧
    initState.isLooping = false ∧ initState.drag = DragTarget.idle ∧
    initState.activeStepId = none ∧ initState.steps = [] ∧
    (stepEv initState (Ev.metadataLoaded d)).1.duration = d ∧
    (stepEv initState (Ev.metadataLoaded d)).1.loopEnd = d ∧
    (stepEv initState (Ev.metadataLoaded d)).1.loopStart = 0 ∧
    (stepEv initState (Ev.metadataLoaded d)).1.isLooping = false ∧
    (stepEv initState (Ev.metadataLoaded d)).1.activeStepId = none ∧
    (stepEv initState (Ev.metadataLoaded d)).1.drag = DragTarget.idle := by
  simp [initState, stepEv, syncSteps]

/-! ### C3 — loop controller -/

theorem no_seek_of_not_looping (ts : List ℚ) :
    ∀ s : PlayerState, s.isLooping = false →
      (run s (ts.map Ev.timeUpdate)).2 = [] := by
  induction ts with
  | nil => intro s _; simp [run]
  | cons t rest ih =>
      intro s h
      simp only [List.map_cons, run]
      rw [stepEv]
      simp only [h]
      norm_num
      exact ih _ (by simp [h])

/-- C3: the loop controller of `handleTimeUpdate`.  The handler reads the
element's live position, so a position update is modelled as "playback is now
at `t`, then the handler runs"; the assignment `video.currentTime =
loopStart` is the seek, and it takes effect synchronously, so the update
after the boundary one reads a post-seek position (the spec stream's `10.1`
is never observed; the next tick reads `loopStart + δ` instead).  With
looping on and loop [5,10]: a general update seeks iff the position reached
`loopEnd`; the stream 5,6,7,8,9,10 issues exactly one seek, to 5, at the
10.0 update, leaving the video at 5; afterwards no seek is issued until the
position reaches 10 again, and reaching it again seeks again.  With looping
off, no stream of updates ever issues a seek. -/
theorem C3_loop_controller (s s2 : PlayerState) (ts : List ℚ)
    (h1 : s.isLooping = true) (h2 : s.loopStart = 5) (h3 : s.loopEnd = 10)
    (h4 : s2.isLooping = false) :
    (∀ u : ℚ, (stepEv s (Ev.timeUpdate u)).2 = if 10 ≤ u then [5] else []) ∧
    (run s (List.map Ev.timeUpdate [5, 6, 7, 8, 9])).2 = [] ∧
    (run s (List.map Ev.timeUpdate [5, 6, 7, 8, 9, 10])).2 = [5] ∧
    (run s (List.map Ev.timeUpdate [5, 6, 7, 8, 9, 10])).1.videoTime = 5 ∧
    (∀ u : ℚ, u < 10 →
      (stepEv (run s (List.map Ev.timeUpdate [5, 6, 7, 8, 9, 10])).1
        (Ev.timeUpdate u)).2 = []) ∧
    (∀ u : ℚ, 10 ≤ u →
      (stepEv (run s (List.map Ev.timeUpdate [5, 6, 7, 8, 9, 10])).1
        (Ev.timeUpdate u)).2 = [5]) ∧
    (run s2 (List.map Ev.timeUpdate ts)).2 = [] := by
  refine ⟨?_, ?_, ?_, ?_, ?_, ?_, no_seek_of_not_looping ts s2 h4⟩
  · intro u
    by_cases hu : (10:ℚ) ≤ u
    · simp [stepEv, h1, h2, h3, hu]
    · simp [stepEv, h1, h3, hu]
  · norm_num [run, stepEv, h1, h2, h3]
  · norm_num [run, stepEv, h1, h2, h3]
  · norm_num [run, stepEv, h1, h2, h3]
  · intro u hu
    norm_num [run, stepEv, h1, h2, h3, not_le.mpr hu]
  · intro u hu
    norm_num [run, stepEv, h1, h2, h3, hu]

/-- Witness for C3 at the concrete state with looping on and loop [5,10],
and at a fresh (non-looping) player fed updates beyond the loop end. -/
theorem C3_loop_controller_witness :
    ({ initState with isLooping := true, loopStart := 5, loopEnd := 10 }
      : PlayerState).isLooping = true ∧
    (run { initState with isLooping := true, loopStart := 5, loopEnd := 10 }
      (List.map Ev.timeUpdate [5, 6, 7, 8, 9, 10])).2 = [5] ∧
    (run initState (List.map Ev.timeUpdate [12, 15])).2 = [] := by
  have h := C3_loop_controller
    { initState with isLooping := true, loopStart := 5, loopEnd := 10 }
    initState [12, 15] (by simp [initState]) (by simp [initState])
    (by simp [initState]) (by simp [initState])
  exact ⟨by simp [initState], h.2.2.1, h.2.2.2.2.2.2⟩

/-! ### C4 — boundary updates accepted iff valid -/

/-- C4: a candidate start time is applied iff it is below the current
`loopEnd`, by drag sample and by the Set Start command alike; a candidate
end time is applied iff it is above the current `loopStart`; a rejected
attempt is a complete no-op (the whole step returns the state unchanged and
issues nothing), never a clamp. -/
theorem C4_boundary_accept_iff (s : PlayerState) (t : ℚ) :
    (s.drag = DragTarget.startHandle →
      (t < s.loopEnd →
        (stepEv s (Ev.mouseMove t)).1.loopStart = t ∧
        (stepEv s (Ev.mouseMove t)).1.loopEnd = s.loopEnd) ∧
      (¬ t < s.loopEnd → stepEv s (Ev.mouseMove t) = (s, []))) ∧
    (s.drag = DragTarget.endHandle →
      (s.loopStart < t →
        (stepEv s (Ev.mouseMove t)).1.loopEnd = t ∧
        (stepEv s (Ev.mouseMove t)).1.loopStart = s.loopStart) ∧
      (¬ s.loopStart < t → stepEv s (Ev.mouseMove t) = (s, []))) ∧
    ((s.videoTime < s.loopEnd →
        (stepEv s Ev.setLoopStartCmd).1.loopStart = s.videoTime ∧
        (stepEv s Ev.setLoopStartCmd).1.loopEnd = s.loopEnd) ∧
      (¬ s.videoTime < s.loopEnd → stepEv s Ev.setLoopStartCmd = (s, []))) ∧
    ((s.loopStart < s.videoTime →
        (stepEv s Ev.setLoopEndCmd).1.loopEnd = s.videoTime ∧
        (stepEv s Ev.setLoopEndCmd).1.loopStart = s.loopStart) ∧
      (¬ s.loopStart < s.videoTime → stepEv s Ev.setLoopEndCmd = (s, []))) := by
  refine ⟨fun hd => ⟨fun hlt => ?_, fun hge => ?_⟩,
          fun hd => ⟨fun hlt => ?_, fun hge => ?_⟩,
          ⟨fun hlt => ?_, fun hge => ?_⟩,
          ⟨fun hlt => ?_, fun hge => ?_⟩⟩ <;>
    simp_all [stepEv]

/-- Witness for C4: a state dragging the start handle over a [0,10] loop,
with an accepted sample t = 3 and a rejected sample t = 12. -/
theorem C4_boundary_accept_iff_witness :
    ({ initState with loopEnd := 10, drag := DragTarget.startHandle }
      : PlayerState).drag = DragTarget.startHandle ∧
    (3:ℚ) < 10 ∧
    (stepEv { initState with loopEnd := 10, drag := DragTarget.startHandle }
      (Ev.mouseMove 3)).1.loopStart = 3 ∧
    stepEv { initState with loopEnd := 10, drag := DragTarget.startHandle }
      (Ev.mouseMove 12) =
      ({ initState with loopEnd := 10, drag := DragTarget.startHandle }, []) := by
  have h3 := ((C4_boundary_accept_iff
    { initState with loopEnd := 10, drag := DragTarget.startHandle } 3).1
    (by simp [initState])).1 (by norm_num [initState])
  have h12 := ((C4_boundary_accept_iff
    { initState with loopEnd := 10, drag := DragTarget.startHandle } 12).1
    (by simp [initState])).2 (by norm_num [initState])
  exact ⟨by simp [initState], by norm_num, h3.1, h12⟩

/-! ### C5 — active-bookmark mirroring -/

theorem namesOf_syncSteps (a : Option StepId) (ls le : ℚ) (l : List Step) :
    (syncSteps a ls le l).map (fun st => st.name) = l.map (fun st => st.name) := by
  cases a with
  | none => rfl
  | some aid =>
      refine map_field_eq _ (fun st => st.name) (fun st => ?_) l
      by_cases h : st.id = aid <;> simp [h]

/-- C5: while a bookmark is active, every accepted loop-boundary mutation
(drag sample on either handle, Set Start, Set End) rewrites the step list by
updating exactly the active bookmark's stored range to the new loop bounds;
identities, names and list order are untouched, and every non-active step is
kept as-is.  In the concrete scenario: activating A = [2,4] and dragging the
end handle to 6 stores [2,6] in A; after activating B = [7,9] instead, a
further end-drag to 8 updates only B, leaving A at [2,6]. -/
theorem C5_active_bookmark_mirroring (s : PlayerState) (aid : StepId) (t : ℚ)
    (ha : s.activeStepId = some aid) :
    (s.drag = DragTarget.endHandle → s.loopStart < t →
      (stepEv s (Ev.mouseMove t)).1.steps =
        s.steps.map (fun st =>
          if st.id = aid then { st with start := s.loopStart, stop := t } else st)) ∧
    (s.drag = DragTarget.startHandle → t < s.loopEnd →
      (stepEv s (Ev.mouseMove t)).1.steps =
        s.steps.map (fun st =>
          if st.id = aid then { st with start := t, stop := s.loopEnd } else st)) ∧
    (s.videoTime < s.loopEnd →
      (stepEv s Ev.setLoopStartCmd).1.steps =
        s.steps.map (fun st =>
          if st.id = aid then { st with start := s.videoTime, stop := s.loopEnd } else st)) ∧
    (s.loopStart < s.videoTime →
      (stepEv s Ev.setLoopEndCmd).1.steps =
        s.steps.map (fun st =>
          if st.id = aid then { st with start := s.loopStart, stop := s.videoTime } else st)) ∧
    idsOf (stepEv s (Ev.mouseMove t)).1.steps = idsOf s.steps ∧
    (stepEv s (Ev.mouseMove t)).1.steps.map (fun st => st.name) =
      s.steps.map (fun st => st.name) ∧
    (∀ st, st ∈ s.steps → ¬ st.id = aid →
      st ∈ (stepEv s (Ev.mouseMove t)).1.steps) ∧
    (run initState traceA).1.steps =
      [{ id := StepId.fromImport 0 0, name := "A", start := 2, stop := 6 },
       { id := StepId.fromImport 0 1, name := "B", start := 7, stop := 9 }] ∧
    (run initState traceB).1.steps =
      [{ id := StepId.fromImport 0 0, name := "A", start := 2, stop := 6 },
       { id := StepId.fromImport 0 1, name := "B", start := 7, stop := 8 }] := by
  refine ⟨fun hd hlt => ?_, fun hd hlt => ?_, fun hlt => ?_, fun hlt => ?_,
          ?_, ?_, ?_, ?_, ?_⟩
  · simp [stepEv, hd, hlt, syncSteps, ha]
  · simp [stepEv, hd, hlt, syncSteps, ha]
  · simp [stepEv, hlt, syncSteps, ha]
  · simp [stepEv, hlt, syncSteps, ha]
  · cases hd : s.drag <;> simp only [stepEv, hd] <;> try rfl
    all_goals split <;> simp [idsOf_syncSteps]
  · cases hd : s.drag <;> simp only [stepEv, hd] <;> try rfl
    all_goals split <;> simp [namesOf_syncSteps]
  · intro st hmem hne
    cases hd : s.drag <;> simp only [stepEv, hd] <;> try exact hmem
    all_goals
      split
      · rw [ha]
        exact List.mem_map.mpr ⟨st, hmem, by simp [hne]⟩
      · exact hmem
  · norm_num [run, stepEv, traceA, initState, importSteps, importStepsFrom, syncSteps]
  · norm_num [run, stepEv, traceB, traceA, initState, importSteps, importStepsFrom,
      syncSteps]

/-- Witness for C5: bookmark A = [2,4] is active, the end handle is dragged
to 6, and A's stored range becomes [2,6]. -/
theorem C5_active_bookmark_mirroring_witness :
    ({ initState with
        activeStepId := some (StepId.fromAdd 0)
        drag := DragTarget.endHandle
        loopStart := 2
        loopEnd := 4
        steps := [{ id := StepId.fromAdd 0, name := "A", start := 2, stop := 4 }] }
      : PlayerState).activeStepId = some (StepId.fromAdd 0) ∧
    (stepEv
      { initState with
          activeStepId := some (StepId.fromAdd 0)
          drag := DragTarget.endHandle
          loopStart := 2
          loopEnd := 4
          steps := [{ id := StepId.fromAdd 0, name := "A", start := 2, stop := 4 }] }
      (Ev.mouseMove 6)).1.steps =
      [{ id := StepId.fromAdd 0, name := "A", start := 2, stop := 6 }] := by
  refine ⟨by simp [initState], ?_⟩
  have h := (C5_active_bookmark_mirroring
    { initState with
        activeStepId := some (StepId.fromAdd 0)
        drag := DragTarget.endHandle
        loopStart := 2
        loopEnd := 4
        steps := [{ id := StepId.fromAdd 0, name := "A", start := 2, stop := 4 }] }
    (StepId.fromAdd 0) 6 (by simp [initState])).1 (by simp [initState])
    (by norm_num [initState])
  rw [h]
  norm_num [initState]

/-! ### C6 — deleting bookmarks -/

/-- C6: `handleDeleteStep` always removes exactly the steps carrying the
given identity (keeping all others in order) and never touches the loop
range; it clears the active binding and forces looping off precisely when
the deleted identity is the active one, and leaves both untouched
otherwise. -/
theorem C6_delete_step (s : PlayerState) (i : StepId) :
    (stepEv s (Ev.deleteStep i)).1.steps =
      s.steps.filter (fun st => decide (¬ st.id = i)) ∧
    (∀ st, st ∈ (stepEv s (Ev.deleteStep i)).1.steps ↔
      st ∈ s.steps ∧ ¬ st.id = i) ∧
    (stepEv s (Ev.deleteStep i)).1.loopStart = s.loopStart ∧
    (stepEv s (Ev.deleteStep i)).1.loopEnd = s.loopEnd ∧
    (s.activeStepId = some i →
      (stepEv s (Ev.deleteStep i)).1.activeStepId = none ∧
      (stepEv s (Ev.deleteStep i)).1.isLooping = false) ∧
    (¬ s.activeStepId = some i →
      (stepEv s (Ev.deleteStep i)).1.activeStepId = s.activeStepId ∧
      (stepEv s (Ev.deleteStep i)).1.isLooping = s.isLooping) := by
  by_cases h : s.activeStepId = some i <;>
    simp_all [stepEv, List.mem_filter]

/-- Witness for C6: deleting the active bookmark A removes it, clears the
binding and turns looping off while keeping the loop range; prior state had
looping on. -/
theorem C6_delete_step_witness :
    ({ initState with
        activeStepId := some (StepId.fromAdd 0)
        isLooping := true
        loopStart := 2
        loopEnd := 4
        steps := [{ id := StepId.fromAdd 0, name := "A", start := 2, stop := 4 }] }
      : PlayerState).activeStepId = some (StepId.fromAdd 0) ∧
    (stepEv
      { initState with
          activeStepId := some (StepId.fromAdd 0)
          isLooping := true
          loopStart := 2
          loopEnd := 4
          steps := [{ id := StepId.fromAdd 0, name := "A", start := 2, stop := 4 }] }
      (Ev.deleteStep (StepId.fromAdd 0))).1.activeStepId = none ∧
    (stepEv
      { initState with
          activeStepId := some (StepId.fromAdd 0)
          isLooping := true
          loopStart := 2
          loopEnd := 4
          steps := [{ id := StepId.fromAdd 0, name := "A", start := 2, stop := 4 }] }
      (Ev.deleteStep (StepId.fromAdd 0))).1.isLooping = false ∧
    (stepEv
      { initState with
          activeStepId := some (StepId.fromAdd 0)
          isLooping := true
          loopStart := 2
          loopEnd := 4
          steps := [{ id := StepId.fromAdd 0, name := "A", start := 2, stop := 4 }] }
      (Ev.deleteStep (StepId.fromAdd 0))).1.loopStart = 2 := by
  have h := C6_delete_step
    { initState with
        activeStepId := some (StepId.fromAdd 0)
        isLooping := true
        loopStart := 2
        loopEnd := 4
        steps := [{ id := StepId.fromAdd 0, name := "A", start := 2, stop := 4 }] }
    (StepId.fromAdd 0)
  have ha := h.2.2.2.2.1 (by simp [initState])
  exact ⟨by simp [initState], ha.1, ha.2, by rw [h.2.2.1]⟩

/-! ### C10 — rename commit -/

/-- C10: committing a rename whose draft trims to empty issues no update —
the player state is completely unchanged and the displayed name reverts to
the stored one; committing a non-empty draft issues an update that renames
exactly the steps with that identity.  In both cases every step's identity,
range and the list order are untouched. -/
theorem C10_rename_commit (s : PlayerState) (i : StepId) (draft stored : String) :
    (jsTrim draft = "" →
      (stepEv s (Ev.blurName i draft)).1 = s ∧
      handleNameBlur stored draft = (none, stored)) ∧
    (¬ jsTrim draft = "" →
      (stepEv s (Ev.blurName i draft)).1.steps =
        s.steps.map (fun st => if st.id = i then { st with name := draft } else st) ∧
      handleNameBlur stored draft = (some draft, draft)) ∧
    idsOf (stepEv s (Ev.blurName i draft)).1.steps = idsOf s.steps ∧
    (stepEv s (Ev.blurName i draft)).1.steps.map (fun st => st.start) =
      s.steps.map (fun st => st.start) ∧
    (stepEv s (Ev.blurName i draft)).1.steps.map (fun st => st.stop) =
      s.steps.map (fun st => st.stop) := by
  refine ⟨fun h => ?_, fun h => ?_, ?_, ?_, ?_⟩
  · simp [stepEv, h, handleNameBlur]
  · simp [stepEv, h, handleNameBlur]
  · by_cases h : jsTrim draft = ""
    · simp [stepEv, h]
    · simp only [stepEv, if_neg h]
      refine idsOf_map_id_preserving _ (fun st => ?_) s.steps
      by_cases hi : st.id = i <;> simp [hi]
  · by_cases h : jsTrim draft = ""
    · simp [stepEv, h]
    · simp only [stepEv, if_neg h]
      refine map_field_eq _ (fun st => st.start) (fun st => ?_) s.steps
      by_cases hi : st.id = i <;> simp [hi]
  · by_cases h : jsTrim draft = ""
    · simp [stepEv, h]
    · simp only [stepEv, if_neg h]
      refine map_field_eq _ (fun st => st.stop) (fun st => ?_) s.steps
      by_cases hi : st.id = i <;> simp [hi]

/-- Witness for C10: committing the whitespace-only draft "  " leaves the
single bookmark untouched and reverts the display; committing "Chorus"
renames it. -/
theorem C10_rename_commit_witness :
    jsTrim "  " = "" ∧
    (stepEv
      { initState with
          steps := [{ id := StepId.fromAdd 0, name := "A", start := 2, stop := 4 }] }
      (Ev.blurName (StepId.fromAdd 0) "  ")).1 =
      { initState with
          steps := [{ id := StepId.fromAdd 0, name := "A", start := 2, stop := 4 }] } ∧
    handleNameBlur "A" "  " = (none, "A") ∧
    ¬ jsTrim "Chorus" = "" ∧
    (stepEv
      { initState with
          steps := [{ id := StepId.fromAdd 0, name := "A", start := 2, stop := 4 }] }
      (Ev.blurName (StepId.fromAdd 0) "Chorus")).1.steps =
      [{ id := StepId.fromAdd 0, name := "Chorus", start := 2, stop := 4 }] := by
  have hempty : jsTrim "  " = "" := by decide
  have hfull : ¬ jsTrim "Chorus" = "" := by decide
  have h1 := (C10_rename_commit
    { initState with
        steps := [{ id := StepId.fromAdd 0, name := "A", start := 2, stop := 4 }] }
    (StepId.fromAdd 0) "  " "A").1 hempty
  have h2 := (C10_rename_commit
    { initState with
        steps := [{ id := StepId.fromAdd 0, name := "A", start := 2, stop := 4 }] }
    (StepId.fromAdd 0) "Chorus" "A").2.1 hfull
  refine ⟨hempty, h1.1, h1.2, hfull, ?_⟩
  rw [h2.1]
  simp [initState]

/-! ### C9 — bookmark identities -/

/-- C9 counterexample: two Add Step clicks within the same clock millisecond
produce the same `new Date().toISOString()` identity, so the two resulting
bookmarks have equal identities — the claim that adds at the same timestamp
still receive pairwise-distinct identities fails. -/
theorem C9_counterexample :
    idsOf (run initState [Ev.addStep 0, Ev.addStep 0]).1.steps =
      [StepId.fromAdd 0, StepId.fromAdd 0] ∧
    ¬ (idsOf (run initState [Ev.addStep 0, Ev.addStep 0]).1.steps).Nodup := by
  constructor <;> norm_num [run, stepEv, initState, idsOf, syncSteps]

theorem idsOf_stepEv_other (s : PlayerState) (e : Ev)
    (hne1 : ∀ x, ¬ e = Ev.addStep x)
    (hne2 : ∀ x, ¬ e = Ev.deleteStep x)
    (hne3 : ∀ x y, ¬ e = Ev.loadSteps x y) :
    idsOf (stepEv s e).1.steps = idsOf s.steps := by
  cases e with
  | addStep ts => exact absurd rfl (hne1 ts)
  | deleteStep i => exact absurd rfl (hne2 i)
  | loadSteps ts l => exact absurd rfl (hne3 ts l)
  | metadataLoaded d => simp [stepEv, idsOf_syncSteps]
  | timeUpdate t => simp only [stepEv]; split <;> rfl
  | setLoopStartCmd => simp only [stepEv]; split <;> simp [idsOf_syncSteps]
  | setLoopEndCmd => simp only [stepEv]; split <;> simp [idsOf_syncSteps]
  | mouseMove t =>
      cases hd : s.drag <;> simp only [stepEv, hd] <;> try rfl
      all_goals split <;> simp [idsOf_syncSteps]
  | playStep i =>
      cases hg : s.steps.get? i with
      | none => rw [stepEv.eq_def]; simp only [hg]
      | some st => rw [stepEv.eq_def]; simp only [hg]; simp [idsOf_syncSteps]
  | updateStepName i nm =>
      simp only [stepEv]
      refine idsOf_map_id_preserving _ (fun st => ?_) s.steps
      by_cases hi : st.id = i <;> simp [hi]
  | blurName i draft =>
      simp only [stepEv]
      split
      · rfl
      · refine idsOf_map_id_preserving _ (fun st => ?_) s.steps
        by_cases hi : st.id = i <;> simp [hi]
  | mouseDownPlayhead => rfl
  | mouseDownStart => rfl
  | mouseDownEnd => rfl
  | mouseUp => rfl
  | toggleLoop => rfl
  | seek t => rfl
  | resetToLoopStart => rfl
  | togglePlayPause => rfl

theorem nodup_ids_run (evs : List Ev) :
    ∀ (s : PlayerState) (A : List Nat),
      (idsOf s.steps).Nodup →
      (∀ ts, StepId.fromAdd ts ∈ idsOf s.steps → ts ∈ A) →
      (∀ ts, ts ∈ addTs evs → ts ∉ A) →
      (addTs evs).Nodup →
      (idsOf (run s evs).1.steps).Nodup := by
  induction evs with
  | nil => intro s A h1 _ _ _; simpa [run] using h1
  | cons e rest ih =>
      intro s A h1 h2 h3 h4
      have hrun : (run s (e :: rest)).1 = (run (stepEv s e).1 rest).1 := by
        simp [run]
      rw [hrun]
      cases e with
      | addStep ts =>
          have hts_notin_A : ts ∉ A := h3 ts (by simp [addTs])
          have h4s : ts ∉ addTs rest ∧ (addTs rest).Nodup := by
            simpa [addTs] using h4
          have hnew : idsOf (stepEv s (Ev.addStep ts)).1.steps
              = idsOf s.steps ++ [StepId.fromAdd ts] := by
            simp [stepEv, idsOf]
          refine ih _ (ts :: A) ?_ ?_ ?_ h4s.2
          · rw [hnew]
            simp only [List.nodup_append, List.nodup_cons, List.not_mem_nil,
              not_false_iff, List.nodup_nil, and_true, true_and]
            refine ⟨h1, ?_⟩
            intro x hx hx2
            simp only [List.mem_singleton] at hx2
            subst hx2
            exact hts_notin_A (h2 ts hx)
          · intro t2 hmem
            rw [hnew] at hmem
            rcases List.mem_append.mp hmem with hmem2 | hmem2
            · exact List.mem_cons_of_mem ts (h2 t2 hmem2)
            · simp only [List.mem_singleton, StepId.fromAdd.injEq] at hmem2
              subst hmem2
              exact List.mem_cons_self t2 A
          · intro t2 ht2
            have hne : ¬ t2 = ts := fun h => (h ▸ h4s.1) ht2
            simp only [List.mem_cons, not_or]
            exact ⟨hne, h3 t2 (by simp [addTs, ht2])⟩
      | deleteStep i =>
          have hsteps : (stepEv s (Ev.deleteStep i)).1.steps
              = s.steps.filter (fun st => decide (¬ st.id = i)) := by
            by_cases hact : s.activeStepId = some i <;> simp [stepEv, hact]
          have hsub : List.Sublist (idsOf (stepEv s (Ev.deleteStep i)).1.steps)
              (idsOf s.steps) := by
            rw [hsteps]
            exact (List.filter_sublist s.steps).map (fun st => st.id)
          refine ih _ A (h1.sublist hsub) ?_
            (fun t2 ht2 => h3 t2 (by simpa [addTs] using ht2))
            (by simpa [addTs] using h4)
          intro t2 hmem
          exact h2 t2 (hsub.subset hmem)
      | loadSteps ts l =>
          have hsteps : (stepEv s (Ev.loadSteps ts l)).1.steps = importSteps ts l := rfl
          refine ih _ A ?_ ?_
            (fun t2 ht2 => h3 t2 (by simpa [addTs] using ht2))
            (by simpa [addTs] using h4)
          · rw [hsteps]
            exact nodup_idsOf_importStepsFrom ts l 0
          · intro t2 hmem
            rw [hsteps] at hmem
            obtain ⟨j, _, hj⟩ := mem_idsOf_importStepsFrom ts l 0 _ hmem
            exact absurd hj (by simp)
      | metadataLoaded d =>
          refine ih _ A ?_ ?_ (fun t2 ht2 => h3 t2 (by simpa [addTs] using ht2))
            (by simpa [addTs] using h4)
          · rw [idsOf_stepEv_other s _ (fun x => by simp) (fun x => by simp)
              (fun x y => by simp)]
            exact h1
          · intro t2 hmem
            rw [idsOf_stepEv_other s _ (fun x => by simp) (fun x => by simp)
              (fun x y => by simp)] at hmem
            exact h2 t2 hmem
      | timeUpdate t =>
          refine ih _ A ?_ ?_ (fun t2 ht2 => h3 t2 (by simpa [addTs] using ht2))
            (by simpa [addTs] using h4)
          · rw [idsOf_stepEv_other s _ (fun x => by simp) (fun x => by simp)
              (fun x y => by simp)]
            exact h1
          · intro t2 hmem
            rw [idsOf_stepEv_other s _ (fun x => by simp) (fun x => by simp)
              (fun x y => by simp)] at hmem
            exact h2 t2 hmem
      | setLoopStartCmd =>
          refine ih _ A ?_ ?_ (fun t2 ht2 => h3 t2 (by simpa [addTs] using ht2))
            (by simpa [addTs] using h4)
          · rw [idsOf_stepEv_other s _ (fun x => by simp) (fun x => by simp)
              (fun x y => by simp)]
            exact h1
          · intro t2 hmem
            rw [idsOf_stepEv_other s _ (fun x => by simp) (fun x => by simp)
              (fun x y => by simp)] at hmem
            exact h2 t2 hmem
      | setLoopEndCmd =>
          refine ih _ A ?_ ?_ (fun t2 ht2 => h3 t2 (by simpa [addTs] using ht2))
            (by simpa [addTs] using h4)
          · rw [idsOf_stepEv_other s _ (fun x => by simp) (fun x => by simp)
              (fun x y => by simp)]
            exact h1
          · intro t2 hmem
            rw [idsOf_stepEv_other s _ (fun x => by simp) (fun x => by simp)
              (fun x y => by simp)] at hmem
            exact h2 t2 hmem
      | mouseDownPlayhead =>
          refine ih _ A ?_ ?_ (fun t2 ht2 => h3 t2 (by simpa [addTs] using ht2))
            (by simpa [addTs] using h4)
          · rw [idsOf_stepEv_other s _ (fun x => by simp) (fun x => by simp)
              (fun x y => by simp)]
            exact h1
          · intro t2 hmem
            rw [idsOf_stepEv_other s _ (fun x => by simp) (fun x => by simp)
              (fun x y => by simp)] at hmem
            exact h2 t2 hmem
      | mouseDownStart =>
          refine ih _ A ?_ ?_ (fun t2 ht2 => h3 t2 (by simpa [addTs] using ht2))
            (by simpa [addTs] using h4)
          · rw [idsOf_stepEv_other s _ (fun x => by simp) (fun x => by simp)
              (fun x y => by simp)]
            exact h1
          · intro t2 hmem
            rw [idsOf_stepEv_other s _ (fun x => by simp) (fun x => by simp)
              (fun x y => by simp)] at hmem
            exact h2 t2 hmem
      | mouseDownEnd =>
          refine ih _ A ?_ ?_ (fun t2 ht2 => h3 t2 (by simpa [addTs] using ht2))
            (by simpa [addTs] using h4)
          · rw [idsOf_stepEv_other s _ (fun x => by simp) (fun x => by simp)
              (fun x y => by simp)]
            exact h1
          · intro t2 hmem
            rw [idsOf_stepEv_other s _ (fun x => by simp) (fun x => by simp)
              (fun x y => by simp)] at hmem
            exact h2 t2 hmem
      | mouseUp =>
          refine ih _ A ?_ ?_ (fun t2 ht2 => h3 t2 (by simpa [addTs] using ht2))
            (by simpa [addTs] using h4)
          · rw [idsOf_stepEv_other s _ (fun x => by simp) (fun x => by simp)
              (fun x y => by simp)]
            exact h1
          · intro t2 hmem
            rw [idsOf_stepEv_other s _ (fun x => by simp) (fun x => by simp)
              (fun x y => by simp)] at hmem
            exact h2 t2 hmem
      | mouseMove t =>
          refine ih _ A ?_ ?_ (fun t2 ht2 => h3 t2 (by simpa [addTs] using ht2))
            (by simpa [addTs] using h4)
          · rw [idsOf_stepEv_other s _ (fun x => by simp) (fun x => by simp)
              (fun x y => by simp)]
            exact h1
          · intro t2 hmem
            rw [idsOf_stepEv_other s _ (fun x => by simp) (fun x => by simp)
              (fun x y => by simp)] at hmem
            exact h2 t2 hmem
      | toggleLoop =>
          refine ih _ A ?_ ?_ (fun t2 ht2 => h3 t2 (by simpa [addTs] using ht2))
            (by simpa [addTs] using h4)
          · rw [idsOf_stepEv_other s _ (fun x => by simp) (fun x => by simp)
              (fun x y => by simp)]
            exact h1
          · intro t2 hmem
            rw [idsOf_stepEv_other s _ (fun x => by simp) (fun x => by simp)
              (fun x y => by simp)] at hmem
            exact h2 t2 hmem
      | playStep i =>
          refine ih _ A ?_ ?_ (fun t2 ht2 => h3 t2 (by simpa [addTs] using ht2))
            (by simpa [addTs] using h4)
          · rw [idsOf_stepEv_other s _ (fun x => by simp) (fun x => by simp)
              (fun x y => by simp)]
            exact h1
          · intro t2 hmem
            rw [idsOf_stepEv_other s _ (fun x => by simp) (fun x => by simp)
              (fun x y => by simp)] at hmem
            exact h2 t2 hmem
      | updateStepName i nm =>
          refine ih _ A ?_ ?_ (fun t2 ht2 => h3 t2 (by simpa [addTs] using ht2))
            (by simpa [addTs] using h4)
          · rw [idsOf_stepEv_other s _ (fun x => by simp) (fun x => by simp)
              (fun x y => by simp)]
            exact h1
          · intro t2 hmem
            rw [idsOf_stepEv_other s _ (fun x => by simp) (fun x => by simp)
              (fun x y => by simp)] at hmem
            exact h2 t2 hmem
      | blurName i draft =>
          refine ih _ A ?_ ?_ (fun t2 ht2 => h3 t2 (by simpa [addTs] using ht2))
            (by simpa [addTs] using h4)
          · rw [idsOf_stepEv_other s _ (fun x => by simp) (fun x => by simp)
              (fun x y => by simp)]
            exact h1
          · intro t2 hmem
            rw [idsOf_stepEv_other s _ (fun x => by simp) (fun x => by simp)
              (fun x y => by simp)] at hmem
            exact h2 t2 hmem
      | seek t =>
          refine ih _ A ?_ ?_ (fun t2 ht2 => h3 t2 (by simpa [addTs] using ht2))
            (by simpa [addTs] using h4)
          · rw [idsOf_stepEv_other s _ (fun x => by simp) (fun x => by simp)
              (fun x y => by simp)]
            exact h1
          · intro t2 hmem
            rw [idsOf_stepEv_other s _ (fun x => by simp) (fun x => by simp)
              (fun x y => by simp)] at hmem
            exact h2 t2 hmem
      | resetToLoopStart =>
          refine ih _ A ?_ ?_ (fun t2 ht2 => h3 t2 (by simpa [addTs] using ht2))
            (by simpa [addTs] using h4)
          · rw [idsOf_stepEv_other s _ (fun x => by simp) (fun x => by simp)
              (fun x y => by simp)]
            exact h1
          · intro t2 hmem
            rw [idsOf_stepEv_other s _ (fun x => by simp) (fun x => by simp)
              (fun x y => by simp)] at hmem
            exact h2 t2 hmem
      | togglePlayPause =>
          refine ih _ A ?_ ?_ (fun t2 ht2 => h3 t2 (by simpa [addTs] using ht2))
            (by simpa [addTs] using h4)
          · rw [idsOf_stepEv_other s _ (fun x => by simp) (fun x => by simp)
              (fun x y => by simp)]
            exact h1
          · intro t2 hmem
            rw [idsOf_stepEv_other s _ (fun x => by simp) (fun x => by simp)
              (fun x y => by simp)] at hmem
            exact h2 t2 hmem

/-- C9 amended: bookmark identities are pairwise distinct for every event
sequence from a fresh player in which the Add Step operations occur at
pairwise-distinct clock timestamps.  Imported entries always receive
distinct identities (the appended index separates entries of one import, and
the ISO-string / "-index" shapes separate them from added ones); only two
adds within the same clock millisecond collide, as the counterexample
shows. -/
theorem C9_ids_nodup (evs : List Ev) (hdist : (addTs evs).Nodup) :
    (idsOf (run initState evs).1.steps).Nodup :=
  nodup_ids_run evs initState []
    (by simp [initState, idsOf])
    (by simp [initState, idsOf])
    (by simp)
    hdist

/-- Witness for C9: two adds at distinct timestamps after an import yield
three pairwise-distinct identities. -/
theorem C9_ids_nodup_witness :
    (addTs [Ev.loadSteps 0 [("A", 1, 2)], Ev.addStep 1, Ev.addStep 2]).Nodup ∧
    (idsOf (run initState
      [Ev.loadSteps 0 [("A", 1, 2)], Ev.addStep 1, Ev.addStep 2]).1.steps).Nodup := by
  refine ⟨by simp [addTs], ?_⟩
  exact C9_ids_nodup [Ev.loadSteps 0 [("A", 1, 2)], Ev.addStep 1, Ev.addStep 2]
    (by simp [addTs])
